import Mathlib

/-!
Verification of the persistence base module (`src/base.py`).

The Python module provides `BaseModel` (audit fields, save/update/delete,
filtered and paginated querying, translation of database constraint
violations into typed errors), `BaseModelWithName` (unique name lookup) and
`BaseModelSoftDelete` (soft delete via an `is_active` flag).

This file shallowly embeds the module: records are explicit structures,
queries are predicate lists over records, a select statement is a record of
where-clauses, ordering clauses and a limit/offset window, and the database
session's flush is executed against an explicit list-of-rows store.  Fallible
Python code (attribute lookup by string name, integrity errors raised at
flush time) is embedded with `Except`.
-/

/-- A database value: SQL NULL, integer, string or boolean. -/
inductive Value where
  | none
  | int (n : Int)
  | str (s : String)
  | bool (b : Bool)
deriving DecidableEq, Repr

/-- Python truthiness of a value, as used by `if filters.get(...)`:
`None`, `0`, the empty string and `False` are falsy. -/
def Value.isTruthy : Value → Bool
  | .none => false
  | .int n => decide (n ≠ 0)
  | .str s => !s.isEmpty
  | .bool b => b

/-- Python text formatting of a value, as used by the f-string
`f"%{search_like_string}%"`. -/
def formatValue : Value → String
  | .none => "None"
  | .int n => toString n
  | .str s => s
  | .bool b => if b then "True" else "False"

/-- An in-memory ORM record: the primary key (absent before the first
flush), the declared column values, and any plain instance attributes that
were assigned through `setattr` under a name that is not a declared column. -/
structure Rec where
  id : Option Int
  attrs : List (String × Value)
  extra : List (String × Value)
deriving DecidableEq, Repr

/-- A concrete record class: its Python class name, its declared column
names, its `search_like_fields` declaration, and the columns carrying a
UNIQUE constraint in the backing store. -/
structure ModelClass where
  name : String
  columns : List String
  searchLikeFields : List String
  uniqueColumns : List String
deriving DecidableEq, Repr

/-- Set a key in an association list, replacing the first existing binding
or appending a new one (Python dict / attribute assignment semantics). -/
def assocSet (l : List (String × Value)) (k : String) (v : Value) : List (String × Value) :=
  match l with
  | [] => [(k, v)]
  | (k', v') :: rest => if k' = k then (k, v) :: rest else (k', v') :: assocSet rest k v

/-- Python `dict.get(k, None)`: first binding of `k`, defaulting to `None`. -/
def lookupVal (l : List (String × Value)) (k : String) : Value :=
  (l.lookup k).getD Value.none

/-- Python `dict.pop(k)`: the association list without the bindings of `k`. -/
def eraseKey (l : List (String × Value)) (k : String) : List (String × Value) :=
  l.filter (fun kv => decide (kv.1 ≠ k))

/-- The SQL-visible value of a record at a column name: the primary key for
`id`, otherwise the stored column value (NULL when unset). -/
def attrVal (r : Rec) (f : String) : Value :=
  if f = "id" then
    match r.id with
    | some i => Value.int i
    | Option.none => Value.none
  else (r.attrs.lookup f).getD Value.none

/-- Python `setattr(self, k, v)`: a declared column name updates the mapped
column; any other name is silently stored as a plain instance attribute.
`setattr` on an object without slots never fails. -/
def setattrRec (cls : ModelClass) (r : Rec) (k : String) (v : Value) : Rec :=
  if k = "id" then
    { r with id := match v with | Value.int i => some i | _ => Option.none }
  else if k ∈ cls.columns then
    { r with attrs := assocSet r.attrs k v }
  else
    { r with extra := assocSet r.extra k v }

/-- Python `getattr(cls, f)` for a column name: the column when it is declared,
otherwise the fatal `AttributeError`. -/
def getColumn (cls : ModelClass) (f : String) : Except String String :=
  if f ∈ cls.columns then .ok f
  else .error ("AttributeError: " ++ f)

/-! ## The constraint-violation regular expressions

`RE_ALREADY_EXIST_COMPILED` is `Key \((.*)\)=\(.*\) already exists|$` and
`RE_NOT_PRESENT_COMPILED` is `Key \((.*)\)=\(.*\) is not present in table|$`.
The code evaluates `re.findall(pattern, msg)[0]`: thanks to the `|$`
alternative the list is never empty, and its first element is the first
capture group of the leftmost match of the left alternative (the regex
engine is leftmost-first, and `(.*)` is greedy with backtracking), or the
empty string when the left alternative matches nowhere.  The matcher below
implements exactly that: scan positions left to right, and at the first
position where the literal `Key (` can start a match, take the longest
group of non-newline characters followed by `)=(`, then any non-newline
characters, then the closing literal (`) already exists` respectively
`) is not present in table`). -/

/-- The check `lit.isPrefixOf l` after consuming any number of non-newline characters:
the continuation `.*<lit>` of the regex after the second `\(`. -/
def dotsThenLit (lit : List Char) : List Char → Bool
  | [] => List.isPrefixOf lit []
  | c :: rest => List.isPrefixOf lit (c :: rest) || (decide (c ≠ '\n') && dotsThenLit lit rest)

/-- Whether the regex continuation `\)=\(.*<lit>` matches at `l`. -/
def tailAfterGroup (lit : List Char) (l : List Char) : Bool :=
  List.isPrefixOf (")=(").data l && dotsThenLit lit (l.drop 3)

/-- Length of the maximal prefix of non-newline characters (the characters
`(.*)` may consume). -/
def dotPrefixLen : List Char → Nat
  | [] => 0
  | c :: rest => if c = '\n' then 0 else dotPrefixLen rest + 1

/-- Greedy backtracking for the capture group `(.*)`: the longest prefix of
at most `k` characters after which `\)=\(.*<lit>` matches. -/
def greedyGroup (lit : List Char) (rest : List Char) : Nat → Option (List Char)
  | 0 => if tailAfterGroup lit rest then some [] else Option.none
  | k + 1 =>
    if tailAfterGroup lit (rest.drop (k + 1)) then some (rest.take (k + 1))
    else greedyGroup lit rest k

/-- The capture group of a match of `Key \((.*)\)=\(.*<lit>` anchored at the
head of `l`, if any. -/
def groupAt (lit : List Char) (l : List Char) : Option (List Char) :=
  if List.isPrefixOf ("Key (").data l then
    let rest := l.drop 5
    greedyGroup lit rest (dotPrefixLen rest)
  else Option.none

/-- The capture group of the leftmost match of `Key \((.*)\)=\(.*<lit>`. -/
def scanFirstGroup (lit : List Char) : List Char → Option (List Char)
  | [] => Option.none
  | c :: rest =>
    match groupAt lit (c :: rest) with
    | some g => some g
    | Option.none => scanFirstGroup lit rest

/-- The value `re.findall(pattern, s)[0]` for the two module patterns: the first
capture group of the leftmost real match, or `""` when only the `$`
alternative matches (an unmatched group is reported as the empty string). -/
def reFindFirstGroup (lit : List Char) (s : String) : String :=
  match scanFirstGroup lit s.data with
  | some g => String.mk g
  | Option.none => ""

/-- The value `re.findall(RE_ALREADY_EXIST_COMPILED, s)[0]`. -/
def reAlreadyExistFirst (s : String) : String :=
  reFindFirstGroup (") already exists").data s

/-- The value `re.findall(RE_NOT_PRESENT_COMPILED, s)[0]`. -/
def reNotPresentFirst (s : String) : String :=
  reFindFirstGroup (") is not present in table").data s

/-- The typed application errors: `DatabaseValidationError(message, fields)`
and `DatabaseIntegrityError(message)`. -/
inductive AppError where
  | validationError (message : String) (fields : String)
  | integrityError (message : String)
deriving DecidableEq, Repr

/-- The observable outcome of `_raise_validation_exception`: the raised
error together with whether `logger.error` was invoked. -/
structure RaiseOutcome where
  error : AppError
  loggedError : Bool
deriving DecidableEq, Repr

namespace BaseModel

/-- Embedding of `BaseModel._raise_validation_exception`, from src/base.py lines 41-49:
classify `exc.orig.args` (here `info`).  The uniqueness pattern is tried
first; a non-empty first findall element raises the unique-constraint
validation error, then the foreign-key pattern is tried, and otherwise the
full error is logged and a generic integrity error is raised. -/
def _raise_validation_exception (clsName : String) (info : List String) : RaiseOutcome :=
  match info with
  | msg :: _ =>
    if reAlreadyExistFirst msg ≠ "" then
      ⟨.validationError ("Unique constraint violated for " ++ clsName) (reAlreadyExistFirst msg),
        false⟩
    else if reNotPresentFirst msg ≠ "" then
      ⟨.validationError ("Foreign key constraint violated for " ++ clsName) (reNotPresentFirst msg),
        false⟩
    else ⟨.integrityError ("Integrity error for " ++ clsName), true⟩
  | [] => ⟨.integrityError ("Integrity error for " ++ clsName), true⟩

end BaseModel

/-! ## SQL LIKE / ILIKE matching

`field.ilike(pattern)` performs case-insensitive LIKE matching: `%` matches
any (possibly empty) character sequence and `_` matches any single
character; both strings are compared after lowercasing. -/

/-- All suffixes of a character list, longest first. -/
def suffixes : List Char → List (List Char)
  | [] => [[]]
  | c :: rest => (c :: rest) :: suffixes rest

/-- SQL LIKE matching of a pattern against a string: `%` consumes any
suffix boundary, `_` one character, any other pattern character itself. -/
def likeMatch : List Char → List Char → Bool
  | [], s => s.isEmpty
  | p :: ps, s =>
    if p = '%' then
      (suffixes s).any (fun t => likeMatch ps t)
    else
      match s with
      | [] => false
      | c :: s' => if p = '_' then likeMatch ps s' else p == c && likeMatch ps s'

/-- Lowercase a character list. -/
def lowerChars (l : List Char) : List Char := l.map Char.toLower

/-- SQLAlchemy `field.ilike(pattern)` applied to a column value: case-insensitive LIKE
on string values; a NULL (or non-string) value yields SQL NULL, which is not
true. -/
def ilikePred (pat : List Char) (v : Value) : Bool :=
  match v with
  | .str s => likeMatch (lowerChars pat) (lowerChars s.data)
  | _ => false

/-- The character substitution of `.replace(" ", "%")`. -/
def spaceToPercent (c : Char) : Char := if c = ' ' then '%' else c

/-- The pattern `f"%{search_like_string}%".replace(" ", "%")` from
`_build_search_like_string_stmt`. -/
def buildSlsPattern (token : List Char) : List Char :=
  (('%' :: token) ++ ['%']).map spaceToPercent

/-- The tail of the built pattern: the words joined and terminated by `%`. -/
def patTail : List (List Char) → List Char
  | [] => []
  | w :: ws => w ++ '%' :: patTail ws

/-- The pattern built from a word list: `%w1%w2%...%wn%`.  For a space-free
word list this is exactly `buildSlsPattern` of the words joined by single
spaces. -/
def patOf (ws : List (List Char)) : List Char := '%' :: patTail ws

/-- The words joined by single spaces (the shape of a multi-word token). -/
def joinWords : List (List Char) → List Char
  | [] => []
  | [w] => w
  | w :: ws => w ++ ' ' :: joinWords ws

/-- The matching semantics the spec describes for a multi-word token: the
string contains the words, in order, separated by arbitrary text. -/
def WordsInOrder : List (List Char) → List Char → Prop
  | [], _ => True
  | w :: ws, s => ∃ a b, s = a ++ w ++ b ∧ WordsInOrder ws b

/-! ## Select statements and their execution -/

/-- A sort direction, `"asc"` or `"desc"`. -/
inductive Direction where
  | asc
  | desc
deriving DecidableEq, Repr

/-- One ORDER BY clause: `getattr(field, direction)().nulls_last()`. -/
structure SortClause where
  field : String
  dir : Direction
  nullsLast : Bool
deriving DecidableEq, Repr

/-- A `sa.select(cls)` statement: accumulated WHERE clauses (combined with
AND), ORDER BY clauses, and the LIMIT/OFFSET window. -/
structure SelectStmt where
  whereClauses : List (Rec → Bool)
  orderBy : List SortClause
  limit : Option Nat
  offset : Nat

/-- The statement with no clauses, `sa.select(cls)`. -/
def emptySelect : SelectStmt :=
  { whereClauses := [], orderBy := [], limit := Option.none, offset := 0 }

/-- Whether a row satisfies every WHERE clause of a statement. -/
def SelectStmt.matches (stmt : SelectStmt) (r : Rec) : Bool :=
  stmt.whereClauses.all (fun c => c r)

/-- SQLAlchemy `stmt.where(sa.or_(*ps))`.  In the SQLAlchemy release used by the
module, `or_()` of an empty argument list produces an empty boolean clause
list that is dropped from the compiled query, so an empty OR group leaves
the statement unchanged (it degrades to true under AND), while a non-empty
group adds the disjunction as one WHERE clause. -/
def whereOr (ps : List (Rec → Bool)) (stmt : SelectStmt) : SelectStmt :=
  match ps with
  | [] => stmt
  | _ :: _ =>
    { stmt with whereClauses := stmt.whereClauses ++ [fun r => ps.any (fun p => p r)] }

/-- Comparison of two non-NULL values of the same column. -/
def compareValue : Value → Value → Ordering
  | .int a, .int b => compare a b
  | .str a, .str b => compare a b
  | .bool a, .bool b => compare a b
  | _, _ => Ordering.eq

/-- Comparison induced by one sort clause: NULL values sort last regardless
of the direction; otherwise ascending or descending value order. -/
def compareBySortClause (c : SortClause) (a b : Rec) : Ordering :=
  let va := attrVal a c.field
  let vb := attrVal b c.field
  if va = Value.none then (if vb = Value.none then Ordering.eq else Ordering.gt)
  else if vb = Value.none then Ordering.lt
  else
    match c.dir with
    | .asc => compareValue va vb
    | .desc => compareValue vb va

/-- Lexicographic comparison by a clause list, first clause strongest. -/
def compareRows : List SortClause → Rec → Rec → Ordering
  | [], _, _ => Ordering.eq
  | c :: cs, a, b =>
    match compareBySortClause c a b with
    | Ordering.eq => compareRows cs a b
    | o => o

/-- Non-strict row order under a clause list. -/
def rowLe (cs : List SortClause) (a b : Rec) : Bool :=
  match compareRows cs a b with
  | Ordering.gt => false
  | _ => true

/-- Stable insertion into a sorted row list. -/
def insertRow (cs : List SortClause) (r : Rec) : List Rec → List Rec
  | [] => [r]
  | x :: xs => if rowLe cs r x then r :: x :: xs else x :: insertRow cs r xs

/-- Stable sort of the result rows by the ORDER BY clauses. -/
def sortRows (cs : List SortClause) (l : List Rec) : List Rec :=
  l.foldr (insertRow cs) []

/-- De-duplication worker: drop any row whose identifier was already seen. -/
def dedupByIdAux (seen : List (Option Int)) : List Rec → List Rec
  | [] => []
  | r :: rs =>
    if r.id ∈ seen then dedupByIdAux seen rs
    else r :: dedupByIdAux (r.id :: seen) rs

/-- SQLAlchemy `result.scalars().unique()`: de-duplication of result rows by identity,
i.e. by primary key, keeping the first occurrence. -/
def dedupById (l : List Rec) : List Rec := dedupByIdAux [] l

/-- Execute a select statement against the store: filter by the WHERE
clauses, sort, apply the OFFSET/LIMIT window, then de-duplicate. -/
def runSelect (stmt : SelectStmt) (db : List Rec) : List Rec :=
  let filtered := db.filter stmt.matches
  let sorted := sortRows stmt.orderBy filtered
  let paged :=
    match stmt.limit with
    | some n => (sorted.drop stmt.offset).take n
    | Option.none => sorted.drop stmt.offset
  dedupById paged

/-- A pagination request. -/
structure Pagination where
  limit : Nat
  offset : Nat
deriving DecidableEq, Repr

/-- The state assembled by `filter` before pagination is considered
(src/base.py lines 134-147): the final query, together with the contents of
the caller-supplied `filters` dict and `conditions` list after the call
(both arguments can be mutated: `pop` on the dict, `extend` on the list). -/
structure PrepOut where
  query : SelectStmt
  callerFilters : Option (List (String × Value))
  callerConditions : Option (List (Rec → Bool))

/-- The outcome of `filter`: the rows, the total count when pagination was
requested, and the post-call contents of the caller-supplied arguments. -/
structure FilterOutput where
  results : List Rec
  total : Option Nat
  callerFilters : Option (List (String × Value))
  callerConditions : Option (List (Rec → Bool))

namespace BaseModel

/-- Embedding of `BaseModel._build_conditions`: one equality predicate per
`(field, value)` pair; an unknown field name is a fatal attribute error. -/
def _build_conditions (cls : ModelClass) :
    List (String × Value) → Except String (List (Rec → Bool))
  | [] => .ok []
  | (f, v) :: rest =>
    match getColumn cls f with
    | .error e => .error e
    | .ok col =>
      match _build_conditions cls rest with
      | .error e => .error e
      | .ok preds => .ok ((fun r => decide (attrVal r col = v)) :: preds)

/-- Embedding of `BaseModel._build_sorting`: one ordering clause per mapping entry, in
mapping order, each with `nulls_last()`; an unknown field name is a fatal
attribute error. -/
def _build_sorting (cls : ModelClass) :
    List (String × Direction) → Except String (List SortClause)
  | [] => .ok []
  | (f, d) :: rest =>
    match getColumn cls f with
    | .error e => .error e
    | .ok col =>
      match _build_sorting cls rest with
      | .error e => .error e
      | .ok clauses => .ok (⟨col, d, true⟩ :: clauses)

/-- The list comprehension `[getattr(cls, f) for f in cls.search_like_fields]`. -/
def getSearchColumns (cls : ModelClass) : List String → Except String (List String)
  | [] => .ok []
  | f :: rest =>
    match getColumn cls f with
    | .error e => .error e
    | .ok col =>
      match getSearchColumns cls rest with
      | .error e => .error e
      | .ok cols => .ok (col :: cols)

/-- Embedding of `BaseModel._build_search_like_string_stmt`: an `ilike` predicate per
declared search-like field over the `%`-wrapped, space-to-`%` pattern, the
predicates OR-combined and added to the statement with `where`. -/
def _build_search_like_string_stmt (cls : ModelClass) (stmt : SelectStmt)
    (search_like_string : String) : Except String SelectStmt :=
  match getSearchColumns cls cls.searchLikeFields with
  | .error e => .error e
  | .ok fields =>
    let sls_stmt := buildSlsPattern search_like_string.data
    let ilikes := fields.map (fun f => fun r => ilikePred sls_stmt (attrVal r f))
    .ok (whereOr ilikes stmt)

/-- The straight-line prefix of `BaseModel.filter` shared by the paginated
and unpaginated outcomes (src/base.py lines 134-147): `conditions =
conditions or []` (a truthy caller list is kept and later mutated by
`extend`; `None` or an empty list is replaced by a fresh list), extraction
of a truthy `search_like_string` entry from `filters` (mutating the
caller's dict via `pop`), equality conditions from the remaining filters,
sorting clauses, and the final `where(and_(*conditions))`.  `finishPrep` is
the common tail: the optional `order_by(*_build_sorting(sorting))` followed
by `where(and_(*conditions))`, recording the post-call contents of the
caller-supplied arguments (the caller's list was kept — and is therefore
seen mutated — exactly when it was truthy). -/
def finishPrep (cls : ModelClass)
    (conditionsArg : Option (List (Rec → Bool)))
    (sorting : Option (List (String × Direction)))
    (stmt : SelectStmt) (conds : List (Rec → Bool))
    (callerFs : Option (List (String × Value))) : Except String PrepOut :=
  let aliased : Bool :=
    match conditionsArg with
    | some cs => !cs.isEmpty
    | Option.none => false
  match sorting with
  | some srt =>
    match _build_sorting cls srt with
    | .error e => .error e
    | .ok clauses =>
      .ok { query := { whereClauses := stmt.whereClauses ++ conds,
                       orderBy := stmt.orderBy ++ clauses,
                       limit := stmt.limit, offset := stmt.offset },
            callerFilters := callerFs,
            callerConditions := if aliased then some conds else conditionsArg }
  | Option.none =>
    .ok { query := { whereClauses := stmt.whereClauses ++ conds,
                     orderBy := stmt.orderBy,
                     limit := stmt.limit, offset := stmt.offset },
          callerFilters := callerFs,
          callerConditions := if aliased then some conds else conditionsArg }

/-- The query-assembly prefix of `BaseModel.filter`, see `finishPrep`. -/
def filterPrep (cls : ModelClass)
    (filters : Option (List (String × Value)))
    (conditionsArg : Option (List (Rec → Bool)))
    (sorting : Option (List (String × Direction))) : Except String PrepOut :=
  let conditions0 : List (Rec → Bool) :=
    match conditionsArg with
    | some cs => cs
    | Option.none => []
  match filters with
  | Option.none => finishPrep cls conditionsArg sorting emptySelect conditions0 Option.none
  | some fs =>
    if fs.isEmpty then finishPrep cls conditionsArg sorting emptySelect conditions0 (some fs)
    else
      let step : Except String (SelectStmt × List (String × Value)) :=
        if (lookupVal fs "search_like_string").isTruthy then
          match _build_search_like_string_stmt cls emptySelect
              (formatValue (lookupVal fs "search_like_string")) with
          | .error e => .error e
          | .ok stmt' => .ok (stmt', eraseKey fs "search_like_string")
        else .ok (emptySelect, fs)
      match step with
      | .error e => .error e
      | .ok (stmtA, fsA) =>
        match _build_conditions cls fsA with
        | .error e => .error e
        | .ok built =>
          finishPrep cls conditionsArg sorting stmtA (conditions0 ++ built) (some fsA)

/-- Embedding of `BaseModel.filter` (src/base.py lines 122-159).  With pagination the
total is `select(count()).select_from(query.subquery())` — the count of the
rows matching the query before the LIMIT/OFFSET window is attached — and
the results are the window of the executed query; without pagination the
results are all matching rows and no count is computed. -/
def filter (cls : ModelClass) (db : List Rec)
    (filters : Option (List (String × Value)))
    (conditionsArg : Option (List (Rec → Bool)))
    (pagination : Option Pagination)
    (sorting : Option (List (String × Direction))) : Except String FilterOutput :=
  match filterPrep cls filters conditionsArg sorting with
  | .error e => .error e
  | .ok prep =>
    match pagination with
    | some p =>
      .ok { results := runSelect { prep.query with limit := some p.limit, offset := p.offset } db,
            total := some (db.filter prep.query.matches).length,
            callerFilters := prep.callerFilters,
            callerConditions := prep.callerConditions }
    | Option.none =>
      .ok { results := runSelect prep.query db,
            total := Option.none,
            callerFilters := prep.callerFilters,
            callerConditions := prep.callerConditions }

/-- Embedding of `BaseModel.get_one_by_filter`: first row (after de-duplication) of the
query with the conditions AND-combined; `None` when nothing matches. -/
def get_one_by_filter (cls : ModelClass) (db : List Rec)
    (conditions : List (Rec → Bool)) : Option Rec :=
  (dedupById (db.filter (fun r => conditions.all (fun c => c r)))).head?

/-- Embedding of `BaseModel.get_by_id`: single-row lookup by primary key. -/
def get_by_id (cls : ModelClass) (db : List Rec) (item_id : Int) : Option Rec :=
  get_one_by_filter cls db [fun r => decide (r.id = some item_id)]

end BaseModel

/-! ## The record lifecycle

The session's `flush` is the backend boundary: it applies the staged write
to the store and raises `IntegrityError` on a constraint violation, with
the backend's free-text diagnostic (PostgreSQL reports
`Key (<cols>)=(<vals>) already exists` for unique violations). -/

/-- The backing store: its rows and the next identifier the backend will
assign. -/
structure DBState where
  rows : List Rec
  nextId : Int
deriving DecidableEq, Repr

/-- The backend's constraint check at flush time: a unique column violated
by the staged record (same non-NULL value on a different row) yields the
`IntegrityError` argument strings, otherwise the flush may proceed. -/
def flushCheck (cls : ModelClass) (db : DBState) (r : Rec) : Option (List String) :=
  match cls.uniqueColumns.find? (fun c =>
      decide (attrVal r c ≠ Value.none) &&
        db.rows.any (fun o => decide (o.id ≠ r.id) && decide (attrVal o c = attrVal r c))) with
  | some c =>
    some ["duplicate key value violates unique constraint DETAIL: Key (" ++ c ++ ")=(" ++
          formatValue (attrVal r c) ++ ") already exists."]
  | Option.none => Option.none

/-- The successful flush of `db.add(self)`: a record without an identifier
is inserted under a fresh one; a record whose identifier names an existing
row updates that row; `db.refresh(self)` then reloads the stored state. -/
def applyFlush (db : DBState) (r : Rec) : DBState × Rec :=
  match r.id with
  | Option.none =>
    let r' := { r with id := some db.nextId }
    ({ rows := db.rows ++ [r'], nextId := db.nextId + 1 }, r')
  | some i =>
    if db.rows.any (fun o => decide (o.id = some i)) then
      ({ db with rows := db.rows.map (fun o => if o.id = some i then r else o) }, r)
    else ({ db with rows := db.rows ++ [r] }, r)

namespace BaseModel

/-- Embedding of `BaseModel.save`: stage the record and flush; an integrity failure is
classified by `_raise_validation_exception` and raised; otherwise the
record is persisted and refreshed. -/
def save (cls : ModelClass) (db : DBState) (r : Rec) : Except AppError (DBState × Rec) :=
  match flushCheck cls db r with
  | some info => .error (_raise_validation_exception cls.name info).error
  | Option.none => .ok (applyFlush db r)

/-- Embedding of `BaseModel.update_attrs`: `setattr` for every pair; assignment never
fails, an unknown name simply becomes a plain instance attribute. -/
def update_attrs (cls : ModelClass) (r : Rec) (data : List (String × Value)) : Rec :=
  data.foldl (fun acc kv => setattrRec cls acc kv.1 kv.2) r

/-- Embedding of `BaseModel.update`: apply all data keys as attribute assignments, then
`save`. -/
def update (cls : ModelClass) (db : DBState) (r : Rec) (data : List (String × Value)) :
    Except AppError (DBState × Rec) :=
  save cls db (update_attrs cls r data)

end BaseModel

namespace BaseModelWithName

/-- Embedding of `BaseModelWithName.get_by_name`: single-row lookup by the unique name
column. -/
def get_by_name (cls : ModelClass) (db : List Rec) (nm : String) : Option Rec :=
  BaseModel.get_one_by_filter cls db [fun r => decide (attrVal r "name" = Value.str nm)]

end BaseModelWithName

namespace BaseModelSoftDelete

/-- Embedding of `BaseModelSoftDelete.delete`: set the active flag to false and save —
the row is never removed. -/
def delete (cls : ModelClass) (db : DBState) (r : Rec) : Except AppError (DBState × Rec) :=
  BaseModel.save cls db (setattrRec cls r "is_active" (Value.bool false))

/-- Embedding of `BaseModelSoftDelete.undelete`: set the active flag to true and save. -/
def undelete (cls : ModelClass) (db : DBState) (r : Rec) : Except AppError (DBState × Rec) :=
  BaseModel.save cls db (setattrRec cls r "is_active" (Value.bool true))

end BaseModelSoftDelete

/-! ## Concrete instances used by the closed witness theorems -/

/-- A concrete record class with a search-like `name` field. -/
def teamCls : ModelClass :=
  { name := "Team",
    columns := ["id", "creator_id", "created_at", "updated_at", "name", "status", "is_active"],
    searchLikeFields := ["name"],
    uniqueColumns := [] }

/-- A concrete stored row. -/
def teamA : Rec :=
  { id := some 1,
    attrs := [("name", Value.str "Alpha Team"), ("status", Value.str "open"),
              ("is_active", Value.bool true)],
    extra := [] }

/-- A second concrete stored row. -/
def teamB : Rec :=
  { id := some 2,
    attrs := [("name", Value.str "Beta Squad"), ("status", Value.str "open"),
              ("is_active", Value.bool true)],
    extra := [] }

/-- The record `teamA` after `update` with the unknown key `bogus`: the
declared columns are untouched and the value landed in a plain instance
attribute. -/
def teamABogus : Rec :=
  { id := some 1,
    attrs := [("name", Value.str "Alpha Team"), ("status", Value.str "open"),
              ("is_active", Value.bool true)],
    extra := [("bogus", Value.int 7)] }

/-! ## Helper lemmas -/

/-- Looking a key up after setting it yields the new value. -/
theorem lookup_assocSet (l : List (String × Value)) (k : String) (v : Value) :
    (assocSet l k v).lookup k = some v := by
  induction l with
  | nil => simp [assocSet]
  | cons kv rest ih =>
    obtain ⟨k', v'⟩ := kv
    by_cases h : k' = k
    · subst h
      simp [assocSet]
    · have hne : (k == k') = false := beq_eq_false_iff_ne.mpr (Ne.symm h)
      simp [assocSet, h, List.lookup, hne, ih]

/-- De-duplication keeps the head of the result list. -/
theorem dedupById_head (l : List Rec) : (dedupById l).head? = l.head? := by
  cases l <;> simp [dedupById, dedupByIdAux]

/-- Claim C1: every constraint-violation failure passed to
`_raise_validation_exception` is classified in order: a non-empty first
findall group of the already-exists pattern raises the uniqueness
validation error carrying the column list and class name; otherwise a
non-empty first group of the not-present pattern raises the reference
validation error; otherwise (an empty group, or an absent message) the
generic integrity error carrying only the class name is raised and the
underlying error is logged. -/
theorem c1_error_classifier_spec (clsName msg : String) (rest : List String) :
    (reAlreadyExistFirst msg ≠ "" →
      BaseModel._raise_validation_exception clsName (msg :: rest) =
        ⟨.validationError ("Unique constraint violated for " ++ clsName)
          (reAlreadyExistFirst msg), false⟩)
    ∧ (reAlreadyExistFirst msg = "" → reNotPresentFirst msg ≠ "" →
      BaseModel._raise_validation_exception clsName (msg :: rest) =
        ⟨.validationError ("Foreign key constraint violated for " ++ clsName)
          (reNotPresentFirst msg), false⟩)
    ∧ (reAlreadyExistFirst msg = "" → reNotPresentFirst msg = "" →
      BaseModel._raise_validation_exception clsName (msg :: rest) =
        ⟨.integrityError ("Integrity error for " ++ clsName), true⟩)
    ∧ BaseModel._raise_validation_exception clsName [] =
        ⟨.integrityError ("Integrity error for " ++ clsName), true⟩ := by
  refine ⟨fun h1 => ?_, fun h1 h2 => ?_, fun h1 h2 => ?_, rfl⟩
  · simp [BaseModel._raise_validation_exception, h1]
  · simp [BaseModel._raise_validation_exception, h1, h2]
  · simp [BaseModel._raise_validation_exception, h1, h2]

/-- Witness for C1 on a concrete PostgreSQL-style diagnostic. -/
theorem c1_error_classifier_witness :
    reAlreadyExistFirst "DETAIL: Key (name)=(bob) already exists." ≠ "" ∧
    BaseModel._raise_validation_exception "User" ["DETAIL: Key (name)=(bob) already exists."] =
      ⟨.validationError "Unique constraint violated for User" "name", false⟩ := by
  refine ⟨by decide, ?_⟩
  exact (c1_error_classifier_spec "User" "DETAIL: Key (name)=(bob) already exists." []).1
    (by decide)

/-- Claim C3: for a record type declaring no search-like fields, the
substring-search build step returns the statement unchanged for any
(non-empty) token: the empty OR group degrades to an always-true predicate
under AND, so the result set is unaffected. -/
theorem c3_no_search_fields_noop (cls : ModelClass) (stmt : SelectStmt) (s : String)
    (hf : cls.searchLikeFields = []) (hs : s ≠ "") :
    ∃ stmt', BaseModel._build_search_like_string_stmt cls stmt s = .ok stmt'
      ∧ (∀ r, stmt'.matches r = stmt.matches r)
      ∧ (∀ db, runSelect stmt' db = runSelect stmt db) := by
  refine ⟨stmt, ?_, fun r => rfl, fun db => rfl⟩
  simp [BaseModel._build_search_like_string_stmt, hf, BaseModel.getSearchColumns, whereOr]

/-- Witness for C3. -/
theorem c3_no_search_fields_witness :
    ModelClass.searchLikeFields
        { name := "Plain", columns := ["id"], searchLikeFields := [], uniqueColumns := [] } = []
    ∧ ("x" : String) ≠ ""
    ∧ ∃ stmt', BaseModel._build_search_like_string_stmt
        { name := "Plain", columns := ["id"], searchLikeFields := [], uniqueColumns := [] }
        emptySelect "x" = .ok stmt'
      ∧ (∀ r, stmt'.matches r = emptySelect.matches r)
      ∧ (∀ db, runSelect stmt' db = runSelect emptySelect db) :=
  ⟨rfl, by decide,
    c3_no_search_fields_noop
      { name := "Plain", columns := ["id"], searchLikeFields := [], uniqueColumns := [] }
      emptySelect "x" rfl (by decide)⟩

/-- Claim C7: the sort builder produces exactly one ordering clause per
entry of the ordered field-to-direction mapping, in mapping order, each
placing nulls last regardless of direction; an unknown field name is a
fatal lookup failure. -/
theorem c7_build_sorting_spec (cls : ModelClass) (sorting : List (String × Direction)) :
    ((∀ fd ∈ sorting, fd.1 ∈ cls.columns) →
      BaseModel._build_sorting cls sorting =
        .ok (sorting.map (fun fd => ⟨fd.1, fd.2, true⟩)))
    ∧ ((∃ fd ∈ sorting, fd.1 ∉ cls.columns) →
      ∃ msg, BaseModel._build_sorting cls sorting = .error msg) := by
  induction sorting with
  | nil =>
    refine ⟨fun _ => rfl, ?_⟩
    rintro ⟨fd, hmem, -⟩
    simp at hmem
  | cons fd rest ih =>
    obtain ⟨f, d⟩ := fd
    constructor
    · intro h
      have hf : f ∈ cls.columns := h (f, d) (List.mem_cons_self _ _)
      have hrest := ih.1 (fun x hx => h x (List.mem_cons_of_mem _ hx))
      simp [BaseModel._build_sorting, getColumn, hf, hrest]
    · rintro ⟨fd', hmem, hnot⟩
      by_cases hf : f ∈ cls.columns
      · have hfd' : fd' ∈ rest := by
          rcases List.mem_cons.mp hmem with h | h
          · exfalso
            exact hnot (h ▸ hf)
          · exact h
        obtain ⟨msg, hmsg⟩ := ih.2 ⟨fd', hfd', hnot⟩
        refine ⟨msg, ?_⟩
        simp [BaseModel._build_sorting, getColumn, hf, hmsg]
      · refine ⟨"AttributeError: " ++ f, ?_⟩
        simp [BaseModel._build_sorting, getColumn, hf]

/-- Witness for C7 on a concrete two-entry mapping. -/
theorem c7_build_sorting_witness :
    (∀ fd ∈ [("status", Direction.asc), ("name", Direction.desc)], fd.1 ∈ teamCls.columns)
    ∧ BaseModel._build_sorting teamCls [("status", Direction.asc), ("name", Direction.desc)] =
        .ok [⟨"status", Direction.asc, true⟩, ⟨"name", Direction.desc, true⟩] :=
  ⟨by decide,
    (c7_build_sorting_spec teamCls [("status", Direction.asc), ("name", Direction.desc)]).1
      (by decide)⟩

/-- Claim C9: when no row matches, `get_by_id` and (for named records)
`get_by_name` return the empty result, never an error. -/
theorem c9_not_found_is_empty (cls : ModelClass) (db : List Rec) (i : Int) (nm : String) :
    ((∀ r ∈ db, r.id ≠ some i) → BaseModel.get_by_id cls db i = Option.none)
    ∧ ((∀ r ∈ db, attrVal r "name" ≠ Value.str nm) →
        BaseModelWithName.get_by_name cls db nm = Option.none) := by
  constructor
  · intro h
    have hfil : db.filter (fun r => decide (r.id = some i)) = [] := by
      simp only [List.filter_eq_nil_iff]
      intro r hr
      simp [h r hr]
    simp [BaseModel.get_by_id, BaseModel.get_one_by_filter, hfil, dedupById, dedupByIdAux]
  · intro h
    have hfil : db.filter (fun r => decide (attrVal r "name" = Value.str nm)) = [] := by
      simp only [List.filter_eq_nil_iff]
      intro r hr
      simp [h r hr]
    simp [BaseModelWithName.get_by_name, BaseModel.get_one_by_filter, hfil, dedupById,
      dedupByIdAux]

/-- Witness for C9 on a concrete store. -/
theorem c9_not_found_witness :
    (∀ r ∈ [teamA, teamB], r.id ≠ some 5)
    ∧ BaseModel.get_by_id teamCls [teamA, teamB] 5 = Option.none :=
  ⟨by decide, (c9_not_found_is_empty teamCls [teamA, teamB] 5 "z").1 (by decide)⟩

/-- What `finishPrep` guarantees on success: the caller-visible filters, the
caller-visible conditions (the caller's own list exactly when it was
truthy), and the final query's clauses and window. -/
theorem finishPrep_ok (cls : ModelClass) (condsArg : Option (List (Rec → Bool)))
    (srt : Option (List (String × Direction))) (stmt : SelectStmt)
    (conds : List (Rec → Bool)) (callerFs : Option (List (String × Value))) (prep : PrepOut)
    (h : BaseModel.finishPrep cls condsArg srt stmt conds callerFs = .ok prep) :
    prep.callerFilters = callerFs
    ∧ prep.callerConditions =
        (if (match condsArg with | some cs => !cs.isEmpty | Option.none => false) = true
         then some conds else condsArg)
    ∧ prep.query.whereClauses = stmt.whereClauses ++ conds
    ∧ prep.query.limit = stmt.limit
    ∧ prep.query.offset = stmt.offset := by
  cases condsArg with
  | none =>
    cases srt with
    | none =>
      simp only [BaseModel.finishPrep] at h
      cases h
      simp
    | some l =>
      simp only [BaseModel.finishPrep] at h
      cases hs : BaseModel._build_sorting cls l with
      | error e => simp [hs] at h
      | ok clauses =>
        rw [hs] at h
        cases h
        simp
  | some cs =>
    cases srt with
    | none =>
      simp only [BaseModel.finishPrep] at h
      cases h
      simp
    | some l =>
      simp only [BaseModel.finishPrep] at h
      cases hs : BaseModel._build_sorting cls l with
      | error e => simp [hs] at h
      | ok clauses =>
        rw [hs] at h
        cases h
        simp

/-- The search-like build step only adds WHERE clauses: ordering and the
window are untouched. -/
theorem build_search_preserves (cls : ModelClass) (stmt : SelectStmt) (s : String)
    (stmt' : SelectStmt)
    (h : BaseModel._build_search_like_string_stmt cls stmt s = .ok stmt') :
    stmt'.orderBy = stmt.orderBy ∧ stmt'.limit = stmt.limit ∧ stmt'.offset = stmt.offset := by
  unfold BaseModel._build_search_like_string_stmt at h
  cases hg : BaseModel.getSearchColumns cls cls.searchLikeFields with
  | error e => simp [hg] at h
  | ok fields =>
    rw [hg] at h
    simp only [Except.ok.injEq] at h
    subst h
    unfold whereOr
    split
    · exact ⟨rfl, rfl, rfl⟩
    · exact ⟨rfl, rfl, rfl⟩

/-- The query assembled by `filterPrep` carries no LIMIT and a zero OFFSET:
the window is attached only later, by the pagination branch of `filter`. -/
theorem filterPrep_window (cls : ModelClass) (filters : Option (List (String × Value)))
    (condsArg : Option (List (Rec → Bool))) (srt : Option (List (String × Direction)))
    (prep : PrepOut)
    (h : BaseModel.filterPrep cls filters condsArg srt = .ok prep) :
    prep.query.limit = Option.none ∧ prep.query.offset = 0 := by
  cases filters with
  | none =>
    simp only [BaseModel.filterPrep] at h
    obtain ⟨-, -, -, hl, ho⟩ := finishPrep_ok _ _ _ _ _ _ _ h
    exact ⟨hl, ho⟩
  | some fs =>
    simp only [BaseModel.filterPrep] at h
    by_cases he : fs.isEmpty = true
    · rw [if_pos he] at h
      obtain ⟨-, -, -, hl, ho⟩ := finishPrep_ok _ _ _ _ _ _ _ h
      exact ⟨hl, ho⟩
    · rw [if_neg he] at h
      by_cases ht : (lookupVal fs "search_like_string").isTruthy = true
      · simp only [ht, if_true] at h
        cases hbs : BaseModel._build_search_like_string_stmt cls emptySelect
            (formatValue (lookupVal fs "search_like_string")) with
        | error e => simp [hbs] at h
        | ok stmtA =>
          simp only [hbs] at h
          cases hbc : BaseModel._build_conditions cls (eraseKey fs "search_like_string") with
          | error e => simp [hbc] at h
          | ok built =>
            simp only [hbc] at h
            obtain ⟨-, -, -, hl, ho⟩ := finishPrep_ok _ _ _ _ _ _ _ h
            obtain ⟨-, hl2, ho2⟩ := build_search_preserves _ _ _ _ hbs
            exact ⟨hl.trans hl2, ho.trans ho2⟩
      · simp only [if_neg ht] at h
        cases hbc : BaseModel._build_conditions cls fs with
        | error e => simp [hbc] at h
        | ok built =>
          simp only [hbc] at h
          obtain ⟨-, -, -, hl, ho⟩ := finishPrep_ok _ _ _ _ _ _ _ h
          exact ⟨hl, ho⟩

/-- Claim C4 counterexample: the claim says a key that does not name a
declared attribute makes `update` fail with a fatal programming error, but
`setattr` never fails — updating with the unknown key `bogus` succeeds. -/
theorem c4_unknown_key_counterexample :
    BaseModel.update teamCls { rows := [teamA], nextId := 2 } teamA [("bogus", Value.int 7)] =
      .ok ({ rows := [teamABogus], nextId := 2 }, teamABogus) := by
  rfl

/-- Claim C4 (amended): `update` applies every key of the data mapping as an
attribute assignment and then invokes `save`; a key naming a declared
column updates that column, while a key that does not name a declared
attribute does not cause a failure — it is assigned as a plain non-column
attribute, the record's columns and identifier are unchanged, and the
operation proceeds to `save` (succeeding whenever the flush does). -/
theorem c4_update_assignment_spec (cls : ModelClass) (db : DBState) (r : Rec)
    (data : List (String × Value)) (k : String) (v : Value) :
    BaseModel.update cls db r data = BaseModel.save cls db (BaseModel.update_attrs cls r data)
    ∧ (k ≠ "id" → k ∈ cls.columns →
        attrVal (BaseModel.update_attrs cls r [(k, v)]) k = v)
    ∧ (k ≠ "id" → k ∉ cls.columns →
        (BaseModel.update_attrs cls r [(k, v)]).attrs = r.attrs
        ∧ (BaseModel.update_attrs cls r [(k, v)]).id = r.id
        ∧ (BaseModel.update_attrs cls r [(k, v)]).extra = assocSet r.extra k v)
    ∧ (flushCheck cls db (BaseModel.update_attrs cls r data) = Option.none →
        ∃ out, BaseModel.update cls db r data = .ok out) := by
  refine ⟨rfl, fun hid hc => ?_, fun hid hc => ?_, fun hf => ?_⟩
  · show attrVal (setattrRec cls r k v) k = v
    simp [setattrRec, hid, hc, attrVal, lookup_assocSet]
  · refine ⟨?_, ?_, ?_⟩
    · show (setattrRec cls r k v).attrs = r.attrs
      simp [setattrRec, hid, hc]
    · show (setattrRec cls r k v).id = r.id
      simp [setattrRec, hid, hc]
    · show (setattrRec cls r k v).extra = assocSet r.extra k v
      simp [setattrRec, hid, hc]
  · refine ⟨applyFlush db (BaseModel.update_attrs cls r data), ?_⟩
    simp [BaseModel.update, BaseModel.save, hf]

/-- Witness for C4 on a concrete record and store. -/
theorem c4_update_assignment_witness :
    ("status" : String) ≠ "id"
    ∧ "status" ∈ teamCls.columns
    ∧ attrVal (BaseModel.update_attrs teamCls teamA [("status", Value.str "closed")]) "status"
        = Value.str "closed" :=
  ⟨by decide, by decide,
    (c4_update_assignment_spec teamCls { rows := [teamA], nextId := 2 } teamA
        [("status", Value.str "closed")] "status" (Value.str "closed")).2.1
      (by decide) (by decide)⟩

/-- Claim C10 (amended): `filter` mutates its caller-supplied arguments:
when the filters mapping contains the reserved substring-search key with a
truthy value, the key is removed from the caller's own mapping; and when a
NON-EMPTY conditions list is passed in, the equality predicates built from
the remaining filters are appended to that same caller-owned list.  A
passed EMPTY list, however, is replaced by a fresh list (`conditions or
[]`), so the caller's empty list is left unmutated; an absent conditions
argument is never visible to the caller. -/
theorem c10_caller_mutation_spec (cls : ModelClass) (fs : List (String × Value))
    (condsArg : Option (List (Rec → Bool))) (srt : Option (List (String × Direction)))
    (prep : PrepOut)
    (hok : BaseModel.filterPrep cls (some fs) condsArg srt = .ok prep) :
    ((lookupVal fs "search_like_string").isTruthy = true →
      prep.callerFilters = some (eraseKey fs "search_like_string"))
    ∧ (∀ cs, condsArg = some cs → cs.isEmpty = false →
      ∃ built,
        BaseModel._build_conditions cls
          (if (lookupVal fs "search_like_string").isTruthy then
            eraseKey fs "search_like_string" else fs) = .ok built
        ∧ prep.callerConditions = some (cs ++ built))
    ∧ (condsArg = some [] → prep.callerConditions = some [])
    ∧ (condsArg = Option.none → prep.callerConditions = Option.none) := by
  simp only [BaseModel.filterPrep] at hok
  by_cases he : fs.isEmpty = true
  · rw [if_pos he] at hok
    have hfs : fs = [] := List.isEmpty_iff.mp he
    subst hfs
    obtain ⟨hCF, hCC, -, -, -⟩ := finishPrep_ok _ _ _ _ _ _ _ hok
    refine ⟨fun ht' => ?_, fun cs hcs hne => ?_, fun hnil => ?_, fun hnone => ?_⟩
    · simp [lookupVal, List.lookup, Value.isTruthy] at ht'
    · subst hcs
      refine ⟨[], by simp [lookupVal, List.lookup, Value.isTruthy,
        BaseModel._build_conditions], ?_⟩
      simp [hne] at hCC
      simpa using hCC
    · subst hnil
      simpa using hCC
    · subst hnone
      simpa using hCC
  · rw [if_neg he] at hok
    by_cases ht : (lookupVal fs "search_like_string").isTruthy = true
    · simp only [ht, if_true] at hok
      cases hbs : BaseModel._build_search_like_string_stmt cls emptySelect
          (formatValue (lookupVal fs "search_like_string")) with
      | error e => simp [hbs] at hok
      | ok stmtA =>
        simp only [hbs] at hok
        cases hbc : BaseModel._build_conditions cls (eraseKey fs "search_like_string") with
        | error e => simp [hbc] at hok
        | ok built =>
          simp only [hbc] at hok
          obtain ⟨hCF, hCC, -, -, -⟩ := finishPrep_ok _ _ _ _ _ _ _ hok
          refine ⟨fun _ => hCF, fun cs hcs hne => ?_, fun hnil => ?_, fun hnone => ?_⟩
          · subst hcs
            refine ⟨built, by simp [ht, hbc], ?_⟩
            simp [hne] at hCC
            simpa using hCC
          · subst hnil
            simpa using hCC
          · subst hnone
            simpa using hCC
    · simp only [if_neg ht] at hok
      cases hbc : BaseModel._build_conditions cls fs with
      | error e => simp [hbc] at hok
      | ok built =>
        simp only [hbc] at hok
        obtain ⟨hCF, hCC, -, -, -⟩ := finishPrep_ok _ _ _ _ _ _ _ hok
        refine ⟨fun ht' => absurd ht' ht, fun cs hcs hne => ?_, fun hnil => ?_,
          fun hnone => ?_⟩
        · subst hcs
          refine ⟨built, by simp [ht, hbc], ?_⟩
          simp [hne] at hCC
          simpa using hCC
        · subst hnil
          simpa using hCC
        · subst hnone
          simpa using hCC

/-- Claim C10 counterexample: with a caller-passed EMPTY conditions list
and filters yielding one equality predicate, the predicate reaches the
query, but the caller's list stays empty — `conditions or []` rebinds the
local name to a fresh list instead of extending the caller's list, so the
claim "appended to that same caller-owned list" fails for empty lists. -/
theorem c10_empty_list_counterexample :
    ∃ prep,
      BaseModel.filterPrep teamCls (some [("status", Value.str "open")]) (some [])
          Option.none = .ok prep
        ∧ prep.callerConditions = some []
        ∧ prep.query.whereClauses.length = 1 :=
  ⟨_, rfl, rfl, rfl⟩

/-- Witness for C10 on a concrete truthy search key with no conditions
argument. -/
theorem c10_caller_mutation_witness :
    (lookupVal [("search_like_string", Value.str "alpha")] "search_like_string").isTruthy
        = true
    ∧ ∃ prep,
        BaseModel.filterPrep teamCls (some [("search_like_string", Value.str "alpha")])
            Option.none Option.none = .ok prep
          ∧ prep.callerFilters = some []
          ∧ prep.callerConditions = Option.none := by
  refine ⟨by decide, ⟨_, rfl, ?_, ?_⟩⟩
  · exact (c10_caller_mutation_spec teamCls [("search_like_string", Value.str "alpha")]
      Option.none Option.none _ rfl).1 (by decide)
  · exact (c10_caller_mutation_spec teamCls [("search_like_string", Value.str "alpha")]
      Option.none Option.none _ rfl).2.2.2 rfl

/-- Claim C5 (amended): when the filters mapping contains the reserved
substring-search key with a TRUTHY value, the key is extracted and removed
from the caller's mapping, its formatted value is applied as the
search-like predicate on the base query, and the key is never treated as an
equality filter — the equality conditions are built from the mapping
without the key.  With a falsy value, the key is left in the mapping and is
treated as an ordinary equality filter. -/
theorem c5_truthy_search_key_spec (cls : ModelClass) (fs : List (String × Value))
    (condsArg : Option (List (Rec → Bool))) (srt : Option (List (String × Direction)))
    (prep : PrepOut)
    (ht : (lookupVal fs "search_like_string").isTruthy = true)
    (hok : BaseModel.filterPrep cls (some fs) condsArg srt = .ok prep) :
    prep.callerFilters = some (eraseKey fs "search_like_string")
    ∧ ∃ stmtS built,
        BaseModel._build_search_like_string_stmt cls emptySelect
            (formatValue (lookupVal fs "search_like_string")) = .ok stmtS
        ∧ BaseModel._build_conditions cls (eraseKey fs "search_like_string") = .ok built
        ∧ prep.query.whereClauses =
            stmtS.whereClauses ++
              ((match condsArg with | some cs => cs | Option.none => []) ++ built) := by
  simp only [BaseModel.filterPrep] at hok
  have he : ¬fs.isEmpty = true := by
    cases fs with
    | nil => simp [lookupVal, List.lookup, Value.isTruthy] at ht
    | cons kv rest => simp
  rw [if_neg he] at hok
  simp only [ht, if_true] at hok
  cases hbs : BaseModel._build_search_like_string_stmt cls emptySelect
      (formatValue (lookupVal fs "search_like_string")) with
  | error e => simp [hbs] at hok
  | ok stmtS =>
    simp only [hbs] at hok
    cases hbc : BaseModel._build_conditions cls (eraseKey fs "search_like_string") with
    | error e => simp [hbc] at hok
    | ok built =>
      simp only [hbc] at hok
      obtain ⟨hCF, -, hW, -, -⟩ := finishPrep_ok _ _ _ _ _ _ _ hok
      exact ⟨hCF, stmtS, built, rfl, rfl, by cases condsArg <;> exact hW⟩

/-- Claim C5 counterexample: with the reserved key present but FALSY (the
empty string), the key is NOT extracted: it remains in the filters and is
treated as an equality filter, so the lookup of the non-existent column is
a fatal attribute error — refuting "regardless of the key's value". -/
theorem c5_falsy_search_key_counterexample :
    BaseModel.filter teamCls [teamA] (some [("search_like_string", Value.str "")])
        Option.none Option.none Option.none = .error "AttributeError: search_like_string" := by
  rfl

/-- Witness for C5 on a concrete truthy search key. -/
theorem c5_truthy_search_key_witness :
    (lookupVal [("search_like_string", Value.str "alpha"), ("status", Value.str "open")]
        "search_like_string").isTruthy = true
    ∧ ∃ prep,
        BaseModel.filterPrep teamCls
            (some [("search_like_string", Value.str "alpha"), ("status", Value.str "open")])
            Option.none Option.none = .ok prep
          ∧ prep.callerFilters = some [("status", Value.str "open")] := by
  refine ⟨by decide, ⟨_, rfl, ?_⟩⟩
  exact (c5_truthy_search_key_spec teamCls
      [("search_like_string", Value.str "alpha"), ("status", Value.str "open")]
      Option.none Option.none _ (by decide) rfl).1

/-- Claim C2: with pagination, `filter` returns the page of rows plus a
total equal to the number of rows matching the accumulated filters and
conditions before the LIMIT/OFFSET window is attached (the assembled query
carries no window, and the total does not depend on the pagination
argument); without pagination it returns all matching rows and no count. -/
theorem c2_filter_pagination_spec (cls : ModelClass) (db : List Rec)
    (filters : Option (List (String × Value)))
    (condsArg : Option (List (Rec → Bool)))
    (srt : Option (List (String × Direction))) (prep : PrepOut)
    (hok : BaseModel.filterPrep cls filters condsArg srt = .ok prep) :
    (∀ p : Pagination,
      BaseModel.filter cls db filters condsArg (some p) srt =
        .ok { results :=
                runSelect { prep.query with limit := some p.limit, offset := p.offset } db,
              total := some (db.filter prep.query.matches).length,
              callerFilters := prep.callerFilters,
              callerConditions := prep.callerConditions })
    ∧ (BaseModel.filter cls db filters condsArg Option.none srt =
        .ok { results := runSelect prep.query db,
              total := Option.none,
              callerFilters := prep.callerFilters,
              callerConditions := prep.callerConditions })
    ∧ prep.query.limit = Option.none ∧ prep.query.offset = 0
    ∧ (∀ p q resP resQ,
        BaseModel.filter cls db filters condsArg (some p) srt = .ok resP →
        BaseModel.filter cls db filters condsArg (some q) srt = .ok resQ →
        resP.total = resQ.total) := by
  obtain ⟨hl, ho⟩ := filterPrep_window _ _ _ _ _ hok
  have h1 : ∀ p : Pagination,
      BaseModel.filter cls db filters condsArg (some p) srt =
        .ok { results :=
                runSelect { prep.query with limit := some p.limit, offset := p.offset } db,
              total := some (db.filter prep.query.matches).length,
              callerFilters := prep.callerFilters,
              callerConditions := prep.callerConditions } := by
    intro p
    simp only [BaseModel.filter, hok]
  refine ⟨h1, ?_, hl, ho, fun p q resP resQ hp hq => ?_⟩
  · simp only [BaseModel.filter, hok]
  · rw [h1 p] at hp
    rw [h1 q] at hq
    cases hp
    cases hq
    rfl

/-- Witness for C2 on a concrete store and page. -/
theorem c2_filter_pagination_witness :
    BaseModel.filterPrep teamCls Option.none Option.none Option.none =
      .ok ⟨emptySelect, Option.none, Option.none⟩
    ∧ BaseModel.filter teamCls [teamA, teamB] Option.none Option.none
        (some ⟨1, 0⟩) Option.none =
      .ok { results :=
              runSelect { emptySelect with limit := some 1, offset := 0 } [teamA, teamB],
            total := some (([teamA, teamB].filter emptySelect.matches)).length,
            callerFilters := Option.none,
            callerConditions := Option.none } := by
  refine ⟨rfl, ?_⟩
  exact (c2_filter_pagination_spec teamCls [teamA, teamB] Option.none Option.none Option.none
      ⟨emptySelect, Option.none, Option.none⟩ rfl).1 ⟨1, 0⟩

/-! ## Helper lemmas for the soft-delete claims -/

/-- With no unique columns declared, the flush never reports a constraint
violation. -/
theorem flushCheck_no_unique (cls : ModelClass) (h : cls.uniqueColumns = [])
    (db : DBState) (r : Rec) : flushCheck cls db r = Option.none := by
  simp [flushCheck, h]

/-- Python `setattr` under a non-`id` name preserves the primary key. -/
theorem setattrRec_id (cls : ModelClass) (r : Rec) (k : String) (v : Value)
    (hk : k ≠ "id") : (setattrRec cls r k v).id = r.id := by
  unfold setattrRec
  rw [if_neg hk]
  split <;> rfl

/-- Python `setattr` on a declared non-`id` column is visible through `attrVal`. -/
theorem attrVal_setattrRec_self (cls : ModelClass) (r : Rec) (k : String) (v : Value)
    (hk : k ≠ "id") (hc : k ∈ cls.columns) :
    attrVal (setattrRec cls r k v) k = v := by
  simp [setattrRec, hk, hc, attrVal, lookup_assocSet]

/-- After replacing every row carrying id `i` by `r`, the first row
matching id `i` is `r`. -/
theorem filter_map_update_head (rows : List Rec) (r : Rec) (i : Int)
    (hr : r.id = some i) (hmem : ∃ o ∈ rows, o.id = some i) :
    ((rows.map (fun o => if o.id = some i then r else o)).filter
        (fun o => decide (o.id = some i))).head? = some r := by
  induction rows with
  | nil => simp at hmem
  | cons o rest ih =>
    by_cases h : o.id = some i
    · simp [h, hr]
    · obtain ⟨o', ho', hid⟩ := hmem
      have hm : o' ∈ rest := by
        rcases List.mem_cons.mp ho' with rfl | hm
        · exact absurd hid h
        · exact hm
      simp only [List.map_cons, if_neg h]
      rw [List.filter_cons_of_neg (by simp [h])]
      exact ih ⟨o', hm, hid⟩

/-- Replacing every row carrying id `i` by a row that still carries id `i`
preserves the existence of a row with id `i`. -/
theorem any_map_update (rows : List Rec) (r : Rec) (i : Int) (hr : r.id = some i)
    (hmem : ∃ o ∈ rows, o.id = some i) :
    (rows.map (fun o => if o.id = some i then r else o)).any
      (fun o => decide (o.id = some i)) = true := by
  rw [List.any_eq_true]
  obtain ⟨o, ho, hid⟩ := hmem
  refine ⟨if o.id = some i then r else o, List.mem_map_of_mem _ ho, ?_⟩
  simp [hid, hr]

/-- Replacing every row carrying id `i` by a row that still carries id `i`,
the existence witness survives in propositional form as well. -/
theorem exists_map_update (rows : List Rec) (r : Rec) (i : Int) (hr : r.id = some i)
    (hmem : ∃ o ∈ rows, o.id = some i) :
    ∃ o ∈ rows.map (fun o => if o.id = some i then r else o), o.id = some i := by
  obtain ⟨o, ho, hid⟩ := hmem
  refine ⟨if o.id = some i then r else o, List.mem_map_of_mem _ ho, ?_⟩
  simp [hid, hr]

/-- Running `get_by_id` after an in-place row update returns the updated row. -/
theorem get_by_id_after_map_update (cls : ModelClass) (rows : List Rec) (r : Rec) (i : Int)
    (hr : r.id = some i) (hmem : ∃ o ∈ rows, o.id = some i) :
    BaseModel.get_by_id cls (rows.map (fun o => if o.id = some i then r else o)) i
      = some r := by
  unfold BaseModel.get_by_id BaseModel.get_one_by_filter
  simp only [List.all_cons, List.all_nil, Bool.and_true]
  rw [dedupById_head]
  exact filter_map_update_head rows r i hr hmem

/-- One soft-delete/undelete save: setting the active flag on a stored
record and saving updates the row in place — same row count, the record
retrievable by id with the new flag value. -/
theorem soft_save_step (cls : ModelClass) (hu : cls.uniqueColumns = [])
    (db : DBState) (r0 : Rec) (i : Int) (b : Bool)
    (hcol : "is_active" ∈ cls.columns)
    (hid0 : r0.id = some i)
    (hmem : ∃ o ∈ db.rows, o.id = some i) :
    ∃ db' r',
      BaseModel.save cls db (setattrRec cls r0 "is_active" (Value.bool b)) = .ok (db', r')
      ∧ db'.rows.length = db.rows.length
      ∧ BaseModel.get_by_id cls db'.rows i = some r'
      ∧ attrVal r' "is_active" = Value.bool b
      ∧ r'.id = some i
      ∧ (∃ o ∈ db'.rows, o.id = some i) := by
  have hk : ("is_active" : String) ≠ "id" := by decide
  have hid1 : (setattrRec cls r0 "is_active" (Value.bool b)).id = some i :=
    (setattrRec_id cls r0 _ _ hk).trans hid0
  have hany : db.rows.any (fun o => decide (o.id = some i)) = true := by
    rw [List.any_eq_true]
    obtain ⟨o, ho, h⟩ := hmem
    exact ⟨o, ho, by simp [h]⟩
  refine ⟨{ db with rows := db.rows.map (fun o => if o.id = some i then
      setattrRec cls r0 "is_active" (Value.bool b) else o) },
    setattrRec cls r0 "is_active" (Value.bool b), ?_, by simp, ?_, ?_, hid1, ?_⟩
  · unfold BaseModel.save
    rw [flushCheck_no_unique cls hu]
    simp only [applyFlush, hid1]
    rw [if_pos hany]
  · exact get_by_id_after_map_update cls db.rows _ i hid1 hmem
  · exact attrVal_setattrRec_self cls r0 _ _ hk hcol
  · exact exists_map_update db.rows _ i hid1 hmem

/-- Claim C8: on a soft-deletable record, `delete()` sets the active flag
to false and saves, never removing the row — the store's row count is
unchanged and the record stays retrievable by id with the flag false;
`undelete()` sets the flag to true and saves; and both route through the
base `save()` and hence through the same constraint-violation
classification: a failing flush yields exactly the classified error. -/
theorem c8_soft_delete_spec (cls : ModelClass) (db : DBState) (r : Rec) (i : Int)
    (hr : r.id = some i)
    (hmem : ∃ o ∈ db.rows, o.id = some i)
    (hcol : "is_active" ∈ cls.columns) :
    (cls.uniqueColumns = [] →
      ∃ db' r', BaseModelSoftDelete.delete cls db r = .ok (db', r')
        ∧ db'.rows.length = db.rows.length
        ∧ BaseModel.get_by_id cls db'.rows i = some r'
        ∧ attrVal r' "is_active" = Value.bool false
        ∧ ∃ db'' r'', BaseModelSoftDelete.undelete cls db' r' = .ok (db'', r'')
            ∧ db''.rows.length = db.rows.length
            ∧ BaseModel.get_by_id cls db''.rows i = some r''
            ∧ attrVal r'' "is_active" = Value.bool true)
    ∧ (∀ info,
        flushCheck cls db (setattrRec cls r "is_active" (Value.bool false)) = some info →
        BaseModelSoftDelete.delete cls db r =
          .error (BaseModel._raise_validation_exception cls.name info).error) := by
  constructor
  · intro hu
    obtain ⟨db1, r1, hs1, hlen1, hget1, hval1, hid1, hmem1⟩ :=
      soft_save_step cls hu db r i false hcol hr hmem
    obtain ⟨db2, r2, hs2, hlen2, hget2, hval2, hid2, hmem2⟩ :=
      soft_save_step cls hu db1 r1 i true hcol hid1 hmem1
    exact ⟨db1, r1, hs1, hlen1, hget1, hval1, db2, r2, hs2, hlen2.trans hlen1, hget2, hval2⟩
  · intro info hi
    show BaseModel.save cls db (setattrRec cls r "is_active" (Value.bool false)) = _
    unfold BaseModel.save
    rw [hi]

/-- Witness for C8 on a concrete soft-deletable store. -/
theorem c8_soft_delete_witness :
    teamA.id = some 1
    ∧ (∃ o ∈ ({ rows := [teamA, teamB], nextId := 3 } : DBState).rows, o.id = some 1)
    ∧ "is_active" ∈ teamCls.columns
    ∧ teamCls.uniqueColumns = []
    ∧ ∃ db' r',
        BaseModelSoftDelete.delete teamCls { rows := [teamA, teamB], nextId := 3 } teamA
          = .ok (db', r')
        ∧ db'.rows.length = ({ rows := [teamA, teamB], nextId := 3 } : DBState).rows.length
        ∧ BaseModel.get_by_id teamCls db'.rows 1 = some r'
        ∧ attrVal r' "is_active" = Value.bool false
        ∧ ∃ db'' r'', BaseModelSoftDelete.undelete teamCls db' r' = .ok (db'', r'')
            ∧ db''.rows.length =
                ({ rows := [teamA, teamB], nextId := 3 } : DBState).rows.length
            ∧ BaseModel.get_by_id teamCls db''.rows 1 = some r''
            ∧ attrVal r'' "is_active" = Value.bool true := by
  refine ⟨rfl, by decide, by decide, rfl, ?_⟩
  exact (c8_soft_delete_spec teamCls { rows := [teamA, teamB], nextId := 3 } teamA 1
      rfl (by decide) (by decide)).1 rfl

/-! ## LIKE-pattern semantics lemmas -/

/-- Membership in `suffixes` is being a suffix. -/
theorem mem_suffixes (s t : List Char) : t ∈ suffixes s ↔ ∃ a, s = a ++ t := by
  induction s with
  | nil =>
    simp only [suffixes, List.mem_singleton]
    constructor
    · rintro rfl
      exact ⟨[], rfl⟩
    · rintro ⟨a, ha⟩
      obtain ⟨-, h2⟩ := List.append_eq_nil.mp ha.symm
      exact h2
  | cons c cs ih =>
    simp only [suffixes, List.mem_cons, ih]
    constructor
    · rintro (rfl | ⟨a, rfl⟩)
      · exact ⟨[], rfl⟩
      · exact ⟨c :: a, rfl⟩
    · rintro ⟨a, ha⟩
      cases a with
      | nil =>
        left
        simpa using ha.symm
      | cons a0 a' =>
        right
        rw [List.cons_append] at ha
        injection ha with h1 h2
        exact ⟨a', h2⟩

/-- A leading `%` in the pattern splits the string anywhere. -/
theorem likeMatch_percent (ps s : List Char) :
    likeMatch ('%' :: ps) s = true ↔ ∃ a b, s = a ++ b ∧ likeMatch ps b = true := by
  have hdef : likeMatch ('%' :: ps) s = (suffixes s).any (fun t => likeMatch ps t) := by
    simp [likeMatch]
  rw [hdef, List.any_eq_true]
  constructor
  · rintro ⟨t, ht, hm⟩
    obtain ⟨a, rfl⟩ := (mem_suffixes s t).mp ht
    exact ⟨a, t, rfl, hm⟩
  · rintro ⟨a, b, rfl, hb⟩
    exact ⟨b, (mem_suffixes _ b).mpr ⟨a, rfl⟩, hb⟩

/-- A wildcard-free literal at the head of the pattern consumes exactly
itself. -/
theorem likeMatch_literal : ∀ (w : List Char), (∀ c ∈ w, c ≠ '%' ∧ c ≠ '_') →
    ∀ (ps s : List Char),
    (likeMatch (w ++ ps) s = true ↔ ∃ b, s = w ++ b ∧ likeMatch ps b = true) := by
  intro w
  induction w with
  | nil =>
    intro _ ps s
    simp
  | cons c w ih =>
    intro hw ps s
    have hc := hw c (List.mem_cons_self c w)
    have hw' : ∀ x ∈ w, x ≠ '%' ∧ x ≠ '_' := fun x hx => hw x (List.mem_cons_of_mem c hx)
    cases s with
    | nil =>
      constructor
      · intro h
        exfalso
        rw [List.cons_append] at h
        simp [likeMatch, hc.1] at h
      · rintro ⟨b, hb, -⟩
        exact absurd hb (by simp)
    | cons d s' =>
      rw [List.cons_append]
      have hred : likeMatch (c :: (w ++ ps)) (d :: s')
          = (c == d && likeMatch (w ++ ps) s') := by
        simp [likeMatch, hc.1, hc.2]
      rw [hred, Bool.and_eq_true]
      constructor
      · rintro ⟨hcd, hm⟩
        have hcd' : c = d := by simpa using hcd
        subst hcd'
        obtain ⟨b, rfl, hb⟩ := (ih hw' ps s').mp hm
        exact ⟨b, by simp, hb⟩
      · rintro ⟨b, hb, hmb⟩
        rw [List.cons_append] at hb
        injection hb with h1 h2
        subst h1
        exact ⟨by simp, (ih hw' ps s').mpr ⟨b, h2, hmb⟩⟩

/-- The built pattern `%w1%...%wn%` matches a string exactly when the
(wildcard-free) words occur in it, in order, separated by arbitrary text. -/
theorem likeMatch_patOf : ∀ (ws : List (List Char)),
    (∀ w ∈ ws, ∀ c ∈ w, c ≠ '%' ∧ c ≠ '_') →
    ∀ s : List Char, (likeMatch (patOf ws) s = true ↔ WordsInOrder ws s) := by
  intro ws
  induction ws with
  | nil =>
    intro _ s
    simp only [patOf, patTail, WordsInOrder]
    rw [likeMatch_percent]
    constructor
    · intro _
      trivial
    · intro _
      exact ⟨s, [], by simp, rfl⟩
  | cons w ws ih =>
    intro hw s
    have hw1 : ∀ c ∈ w, c ≠ '%' ∧ c ≠ '_' := hw w (List.mem_cons_self _ _)
    have hw' : ∀ x ∈ ws, ∀ c ∈ x, c ≠ '%' ∧ c ≠ '_' :=
      fun x hx => hw x (List.mem_cons_of_mem _ hx)
    have hpat : patOf (w :: ws) = '%' :: (w ++ patOf ws) := rfl
    rw [hpat, likeMatch_percent]
    simp only [WordsInOrder]
    constructor
    · rintro ⟨a, b, rfl, hb⟩
      obtain ⟨b', rfl, hb'⟩ := (likeMatch_literal w hw1 (patOf ws) b).mp hb
      exact ⟨a, b', (List.append_assoc a w b').symm, (ih hw' b').mp hb'⟩
    · rintro ⟨a, b, rfl, hb⟩
      exact ⟨a, w ++ b, List.append_assoc a w b,
        (likeMatch_literal w hw1 (patOf ws) (w ++ b)).mpr ⟨b, rfl, (ih hw' b).mpr hb⟩⟩

/-- Space substitution is the identity on space-free words. -/
theorem map_spaceToPercent_of_spacefree (w : List Char) (h : ∀ c ∈ w, c ≠ ' ') :
    w.map spaceToPercent = w := by
  induction w with
  | nil => rfl
  | cons c w ih =>
    have hc := h c (List.mem_cons_self _ _)
    simp [spaceToPercent, hc, ih (fun x hx => h x (List.mem_cons_of_mem _ hx))]

/-- Joining space-free words by spaces and substituting spaces (plus the
closing `%`) yields the pattern tail. -/
theorem map_spaceToPercent_joinWords : ∀ (ws : List (List Char)), ws ≠ [] →
    (∀ w ∈ ws, ∀ c ∈ w, c ≠ ' ') →
    (joinWords ws ++ ['%']).map spaceToPercent = patTail ws := by
  intro ws
  induction ws with
  | nil => exact fun hne _ => absurd rfl hne
  | cons w ws ih =>
    intro _ hsp
    cases ws with
    | nil =>
      show (joinWords [w] ++ ['%']).map spaceToPercent = patTail [w]
      simp only [joinWords, patTail]
      rw [List.map_append, map_spaceToPercent_of_spacefree w (hsp w (by simp))]
      rfl
    | cons w2 ws2 =>
      have hne2 : (w2 :: ws2) ≠ ([] : List (List Char)) := by simp
      have hsp2 : ∀ x ∈ w2 :: ws2, ∀ c ∈ x, c ≠ ' ' :=
        fun x hx => hsp x (List.mem_cons_of_mem _ hx)
      show ((w ++ ' ' :: joinWords (w2 :: ws2)) ++ ['%']).map spaceToPercent
          = w ++ '%' :: patTail (w2 :: ws2)
      rw [List.append_assoc, List.map_append,
        map_spaceToPercent_of_spacefree w (hsp w (by simp))]
      rw [show (' ' :: joinWords (w2 :: ws2)) ++ ['%']
          = ' ' :: (joinWords (w2 :: ws2) ++ ['%']) from rfl]
      rw [List.map_cons, ih hne2 hsp2]
      rfl

/-- For a non-empty space-free word list, the code's pattern equals
`patOf`. -/
theorem buildSlsPattern_joinWords (ws : List (List Char)) (hne : ws ≠ [])
    (hsp : ∀ w ∈ ws, ∀ c ∈ w, c ≠ ' ') :
    buildSlsPattern (joinWords ws) = patOf ws := by
  show (('%' :: joinWords ws) ++ ['%']).map spaceToPercent = '%' :: patTail ws
  rw [List.cons_append, List.map_cons, map_spaceToPercent_joinWords ws hne hsp]
  rfl

/-- Lowercasing distributes over the pattern tail. -/
theorem lowerChars_patTail (ws : List (List Char)) :
    lowerChars (patTail ws) = patTail (ws.map lowerChars) := by
  induction ws with
  | nil => rfl
  | cons w ws ih =>
    have h : Char.toLower '%' = '%' := by decide
    simp only [patTail, lowerChars, List.map_append, List.map_cons] at ih ⊢
    rw [h, ih]

/-- Lowercasing distributes over the built pattern. -/
theorem lowerChars_patOf (ws : List (List Char)) :
    lowerChars (patOf ws) = patOf (ws.map lowerChars) := by
  have h : Char.toLower '%' = '%' := by decide
  show lowerChars ('%' :: patTail ws) = '%' :: patTail (ws.map lowerChars)
  simp only [lowerChars, List.map_cons]
  rw [h]
  have := lowerChars_patTail ws
  simp only [lowerChars] at this
  rw [this]

/-- When all declared search-like fields are columns, the comprehension
returns them unchanged. -/
theorem getSearchColumns_ok (cls : ModelClass) : ∀ (l : List String),
    (∀ f ∈ l, f ∈ cls.columns) → BaseModel.getSearchColumns cls l = .ok l := by
  intro l
  induction l with
  | nil => intro _; rfl
  | cons f rest ih =>
    intro h
    have hf : f ∈ cls.columns := h f (List.mem_cons_self _ _)
    have hr := ih (fun x hx => h x (List.mem_cons_of_mem _ hx))
    simp [BaseModel.getSearchColumns, getColumn, hf, hr]

/-- Claim C6: for a non-empty multi-word token and a record type with
declared search-like fields (all of them columns), the search build step
adds one case-insensitive substring predicate per declared field in which
each space of the token acts as a wildcard separator: the built statement
matches a row exactly when the base statement matches it AND (OR over the
declared fields) the field holds a string containing the lowercased words
in order, separated by arbitrary text; ordering and the window are
untouched. -/
theorem c6_search_like_semantics (cls : ModelClass) (stmt : SelectStmt) (token : String)
    (ws : List (List Char))
    (hf : cls.searchLikeFields ≠ [])
    (hcols : ∀ f ∈ cls.searchLikeFields, f ∈ cls.columns)
    (htok : token.data = joinWords ws)
    (hws : ws ≠ [])
    (hsp : ∀ w ∈ ws, ∀ c ∈ w, c ≠ ' ')
    (hwild : ∀ w ∈ ws, ∀ c ∈ lowerChars w, c ≠ '%' ∧ c ≠ '_') :
    ∃ stmt', BaseModel._build_search_like_string_stmt cls stmt token = .ok stmt'
      ∧ stmt'.orderBy = stmt.orderBy ∧ stmt'.limit = stmt.limit
      ∧ stmt'.offset = stmt.offset
      ∧ ∀ r, stmt'.matches r = true ↔
          (stmt.matches r = true ∧
            ∃ f ∈ cls.searchLikeFields, ∃ s, attrVal r f = Value.str s ∧
              WordsInOrder (ws.map lowerChars) (lowerChars s.data)) := by
  have hwild' : ∀ w ∈ ws.map lowerChars, ∀ c ∈ w, c ≠ '%' ∧ c ≠ '_' := by
    intro w hw
    obtain ⟨w0, hw0, rfl⟩ := List.mem_map.mp hw
    exact hwild w0 hw0
  have hok : BaseModel.getSearchColumns cls cls.searchLikeFields
      = .ok cls.searchLikeFields := getSearchColumns_ok cls _ hcols
  have hpat : ∀ s : List Char,
      likeMatch (lowerChars (buildSlsPattern token.data)) (lowerChars s) = true
        ↔ WordsInOrder (ws.map lowerChars) (lowerChars s) := by
    intro s
    rw [htok, buildSlsPattern_joinWords ws hws hsp, lowerChars_patOf]
    exact likeMatch_patOf (ws.map lowerChars) hwild' _
  obtain ⟨f0, rest, hfields⟩ : ∃ f0 rest, cls.searchLikeFields = f0 :: rest := by
    cases hx : cls.searchLikeFields with
    | nil => exact absurd hx hf
    | cons a b => exact ⟨a, b, rfl⟩
  refine ⟨{ stmt with whereClauses := stmt.whereClauses ++
      [fun r => (cls.searchLikeFields.map
          (fun f => fun r => ilikePred (buildSlsPattern token.data) (attrVal r f))).any
        (fun p => p r)] }, ?_, rfl, rfl, rfl, ?_⟩
  · simp only [BaseModel._build_search_like_string_stmt, hok]
    rw [hfields]
    rfl
  · intro r
    simp only [SelectStmt.matches, List.all_append, List.all_cons, List.all_nil,
      Bool.and_true, Bool.and_eq_true]
    constructor
    · rintro ⟨h1, h2⟩
      refine ⟨h1, ?_⟩
      rw [List.any_eq_true] at h2
      obtain ⟨p, hp, hpr⟩ := h2
      obtain ⟨f, hfmem, rfl⟩ := List.mem_map.mp hp
      have hpr' : ilikePred (buildSlsPattern token.data) (attrVal r f) = true := hpr
      refine ⟨f, hfmem, ?_⟩
      cases hv : attrVal r f with
      | str s =>
        refine ⟨s, rfl, ?_⟩
        rw [hv] at hpr'
        have hlm : likeMatch (lowerChars (buildSlsPattern token.data))
            (lowerChars s.data) = true := by
          simpa [ilikePred] using hpr'
        exact (hpat s.data).mp hlm
      | none =>
        rw [hv] at hpr'
        simp [ilikePred] at hpr'
      | int n =>
        rw [hv] at hpr'
        simp [ilikePred] at hpr'
      | bool b =>
        rw [hv] at hpr'
        simp [ilikePred] at hpr'
    · rintro ⟨h1, f, hfmem, s, hv, hwio⟩
      refine ⟨h1, ?_⟩
      rw [List.any_eq_true]
      refine ⟨fun r' => ilikePred (buildSlsPattern token.data) (attrVal r' f),
        List.mem_map_of_mem _ hfmem, ?_⟩
      show ilikePred (buildSlsPattern token.data) (attrVal r f) = true
      rw [hv]
      show likeMatch (lowerChars (buildSlsPattern token.data)) (lowerChars s.data) = true
      exact (hpat s.data).mpr hwio

/-- Witness for C6 on the concrete token "alpha team". -/
theorem c6_search_like_witness :
    teamCls.searchLikeFields ≠ []
    ∧ ("alpha team" : String).data = joinWords ["alpha".data, "team".data]
    ∧ ∃ stmt', BaseModel._build_search_like_string_stmt teamCls emptySelect "alpha team"
          = .ok stmt'
        ∧ stmt'.orderBy = emptySelect.orderBy ∧ stmt'.limit = emptySelect.limit
        ∧ stmt'.offset = emptySelect.offset
        ∧ ∀ r, stmt'.matches r = true ↔
            (emptySelect.matches r = true ∧
              ∃ f ∈ teamCls.searchLikeFields, ∃ s, attrVal r f = Value.str s ∧
                WordsInOrder (["alpha".data, "team".data].map lowerChars)
                  (lowerChars s.data)) := by
  refine ⟨by decide, by decide, ?_⟩
  exact c6_search_like_semantics teamCls emptySelect "alpha team"
    ["alpha".data, "team".data] (by decide) (by decide) (by decide) (by decide)
    (by decide) (by decide)
